import Mathlib

/-!
Verification of `scrape_deputes_france.py`.

This file gives a shallow embedding of the program's pure logic and proves
properties of it.  Network fetches are modelled by explicit parameters
(`Nat → Except String String` for the attempt sequence of the retrying
fetcher, `String → Option NodeList` for the page returned per URL), and
HTML documents are modelled by a node tree (`Node` / `NodeList`) mirroring
the BeautifulSoup view of a parsed page: each element node has a tag name,
a (possibly empty) list of class tokens, an optional `href` attribute and
a list of children.  Python string primitives used by the program
(`str.strip`, `str.capitalize`, `str.replace`, `str.ljust`,
`str.startswith`) are embedded as executable functions on `List Char`.
-/

/-! ## Python string primitives -/

/-- Python `str.strip()`: drop leading and trailing whitespace. -/
def pyStrip (s : String) : String :=
  ⟨((s.data.dropWhile Char.isWhitespace).reverse.dropWhile Char.isWhitespace).reverse⟩

/-- Python `str.capitalize()`: upper-case the first character and
lower-case the rest. -/
def pyCapitalize (s : String) : String :=
  match s.data with
  | [] => ""
  | c :: cs => ⟨c.toUpper :: cs.map Char.toLower⟩

/-- Python `str.startswith(pre)`. -/
def pyStartsWith (s pre : String) : Bool :=
  pre.data.isPrefixOf s.data

/-- Python `str.replace(pat, "")` on character lists: remove every
leftmost non-overlapping occurrence of `pat`.  The `fuel` argument makes
the recursion structural; each step consumes at least one character of the
input, so `fuel = input length` never runs out. -/
def pyRemoveGo (pat : List Char) : Nat → List Char → List Char
  | 0, l => l
  | _ + 1, [] => []
  | fuel + 1, c :: cs =>
    if pat.isPrefixOf (c :: cs) && !pat.isEmpty then
      pyRemoveGo pat fuel ((c :: cs).drop pat.length)
    else
      c :: pyRemoveGo pat fuel cs

/-- Python `s.replace(pat, "")`. -/
def pyRemove (s pat : String) : String :=
  ⟨pyRemoveGo pat.data s.data.length s.data⟩

/-- Python `str.ljust(w)`: pad on the right with spaces up to width `w`. -/
def pyLjust (s : String) (w : Nat) : String :=
  s ++ ⟨List.replicate (w - s.length) ' '⟩

/-! ## The HTML node tree -/

mutual
/-- One node of a parsed HTML document: either a bare string or an element
with tag name, class tokens (empty list when the `class` attribute is
absent), optional `href` attribute, and children. -/
inductive Node where
  | text (s : String)
  | elem (tag : String) (classes : List String) (href : Option String) (children : NodeList)
deriving Repr

/-- A sibling list of nodes. -/
inductive NodeList where
  | nil
  | cons (n : Node) (ns : NodeList)
deriving Repr
end

def NodeList.append : NodeList → NodeList → NodeList
  | .nil, ys => ys
  | .cons x xs, ys => .cons x (xs.append ys)

instance : Append NodeList := ⟨NodeList.append⟩

theorem NodeList.nil_append (ys : NodeList) : NodeList.nil ++ ys = ys := rfl

theorem NodeList.cons_append (x : Node) (xs ys : NodeList) :
    NodeList.cons x xs ++ ys = NodeList.cons x (xs ++ ys) := rfl

/-- Build a `NodeList` from a `List Node` (convenience for concrete pages). -/
def NodeList.ofList : List Node → NodeList
  | [] => .nil
  | n :: ns => .cons n (NodeList.ofList ns)

/-- Tag name of an element node (`None`, modelled as no match, for strings). -/
def isNamed (t : String) : Node → Bool
  | .text _ => false
  | .elem tg _ _ _ => tg == t

/-- The class token list of a node (`[]` both for strings and for elements
without a `class` attribute; BeautifulSoup's `tag.get("class")` returns
`None` in those cases, which compares unequal to any token list). -/
def Node.classTokens : Node → List String
  | .text _ => []
  | .elem _ cls _ _ => cls

/-- The `href` attribute of a node, defaulting to `""`; only read on nodes
already known to carry an `href`. -/
def Node.hrefD : Node → String
  | .elem _ _ (some h) _ => h
  | _ => ""

/-- The children of a node. -/
def Node.childNodes : Node → NodeList
  | .text _ => .nil
  | .elem _ _ _ ch => ch

mutual
/-- BeautifulSoup `get_text(strip=True)` on one node: concatenation of all
descendant strings, each stripped. -/
def nodeText : Node → String
  | .text s => pyStrip s
  | .elem _ _ _ ch => listText ch

def listText : NodeList → String
  | .nil => ""
  | .cons n ns => nodeText n ++ listText ns
end

/-- BeautifulSoup matching of a `class_` query string against the class
token list of a tag: the query matches if it equals one token, or if it
equals the full space-joined `class` attribute. -/
def bs4ClassMatch (classes : List String) (query : String) : Bool :=
  classes.contains query || String.intercalate " " classes == query

mutual
/-- BeautifulSoup `find`: first element node, in document (pre-)order,
satisfying the predicate on (tag, class tokens, href). -/
def bsFindNode (p : String → List String → Option String → Bool) : Node → Option Node
  | .text _ => none
  | .elem t cls h ch =>
    if p t cls h then some (.elem t cls h ch) else bsFindList p ch

def bsFindList (p : String → List String → Option String → Bool) : NodeList → Option Node
  | .nil => none
  | .cons n ns =>
    match bsFindNode p n with
    | some r => some r
    | none => bsFindList p ns
end

mutual
/-- Does any element node in the tree satisfy the predicate? -/
def nodeAny (p : String → List String → Option String → Bool) : Node → Bool
  | .text _ => false
  | .elem t cls h ch => p t cls h || listAny p ch

def listAny (p : String → List String → Option String → Bool) : NodeList → Bool
  | .nil => false
  | .cons n ns => nodeAny p n || listAny p ns
end

/-! ## The retrying fetcher (`get_with_retries`, lines 49-77)

The attempt sequence is modelled by `target : Nat → Except String String`
(attempt index ↦ transport error or response body).  Besides the result
(`none` when all attempts fail — the Python function returns `None`), the
embedding records the observable event trace: one `attempt i` event per
executed attempt and one `sleep` event per executed `time.sleep`. -/

inductive FetchEvent where
  | attempt (i : Nat)
  | sleep
deriving DecidableEq, Repr

def FetchEvent.isAttempt : FetchEvent → Bool
  | .attempt _ => true
  | .sleep => false

def FetchEvent.isSleep : FetchEvent → Bool
  | .attempt _ => false
  | .sleep => true

/-- Does this attempt outcome count as a failed attempt? -/
def fetchFails : Except String String → Bool
  | .ok _ => false
  | .error _ => true

/-- The loop of `get_with_retries`: `attempt` is the 1-based attempt index,
`remaining` the number of loop iterations left (`attempt + remaining =
max_retries + 1` at every call from the entry point).  A successful attempt
returns its body immediately; a failed attempt sleeps only if more attempts
remain (`attempt < max_retries`) and `delay_between > 0`. -/
def get_with_retries_go (target : Nat → Except String String) (max_retries : Nat)
    (delay_between : ℚ) : Nat → Nat → Option String × List FetchEvent
  | _, 0 => (none, [])
  | attempt, remaining + 1 =>
    match target attempt with
    | .ok body => (some body, [FetchEvent.attempt attempt])
    | .error _ =>
      let tail := get_with_retries_go target max_retries delay_between (attempt + 1) remaining
      (tail.1, FetchEvent.attempt attempt ::
        ((if attempt < max_retries ∧ 0 < delay_between then [FetchEvent.sleep] else []) ++ tail.2))

/-- `get_with_retries(url, max_retries, delay_between, timeout, debug)`:
runs attempts `1, …, max_retries` against `target`, returning the first
successful body, or `none` after exhausting all attempts. -/
def get_with_retries (target : Nat → Except String String) (max_retries : Nat)
    (delay_between : ℚ) : Option String × List FetchEvent :=
  get_with_retries_go target max_retries delay_between 1 max_retries

/-! ## The listing extractor (`get_deputes_from_region`, lines 80-148)

The roster page is modelled as the sibling list of the document; the fetch
outcome is a parameter (`none` when `get_with_retries` returned `None`).
The extractor locates the first `<h2>` whose stripped text equals the
region name, then walks its following siblings, stopping at the next
`<h2>`; each `<h4 class="departementTitre">` opens a nested scan of its
own following siblings (stopping at the next `<h4>` or `<h2>`) in which
every `<li>` descendant of a `<div>` sibling contributes its first
`<a href>` link when the href starts with `/deputes/fiche/`. -/

def BASE_URL : String := "https://www.assemblee-nationale.fr"

/-- Python `dict` update `m[k] = v`: overwrite in place when the key
exists, else append (insertion order preserved). -/
def dictUpsert (m : List (String × String)) (k v : String) : List (String × String) :=
  if m.any (fun p => p.1 == k) then
    m.map (fun p => if p.1 == k then (p.1, v) else p)
  else m ++ [(k, v)]

mutual
/-- All `<li>` element descendants of a node (itself included when it is a
`li`), in document order — BeautifulSoup `find_all("li")`. -/
def nodeLis : Node → List Node
  | .text _ => []
  | .elem t cls h ch => (if t == "li" then [Node.elem t cls h ch] else []) ++ listLis ch

def listLis : NodeList → List Node
  | .nil => []
  | .cons n ns => nodeLis n ++ listLis ns
end

/-- Predicate for `li_tag.find("a", href=True)`. -/
def aWithHref (t : String) (_cls : List String) (h : Option String) : Bool :=
  t == "a" && h.isSome

/-- Lines 137-144: for each `<li>` of a `<div>` sibling, take its first
`<a href>` descendant; when the href starts with `/deputes/fiche/`, map
the link text to the absolute URL. -/
def collectLiEntries (acc : List (String × String)) : List Node → List (String × String)
  | [] => acc
  | li :: rest =>
    let acc' :=
      match bsFindList aWithHref li.childNodes with
      | some a =>
        if pyStartsWith a.hrefD "/deputes/fiche/" then
          dictUpsert acc (nodeText a) (BASE_URL ++ a.hrefD)
        else acc
      | none => acc
    collectLiEntries acc' rest

/-- Lines 133-144: the nested scan following a `departementTitre` heading;
a following `<h4>` or `<h2>` sibling terminates it, `<div>` siblings are
mined for `<li>` entries, everything else is skipped. -/
def department_scan (acc : List (String × String)) : NodeList → List (String × String)
  | .nil => acc
  | .cons sib rest =>
    if isNamed "h4" sib || isNamed "h2" sib then acc
    else if isNamed "div" sib then
      department_scan (collectLiEntries acc (listLis sib.childNodes)) rest
    else department_scan acc rest

/-- Lines 126-144: the sibling walk after the matched region heading; a
`<h2>` sibling terminates it, each `<h4 class="departementTitre">` opens a
`department_scan` of its following siblings. -/
def region_block_scan (acc : List (String × String)) : NodeList → List (String × String)
  | .nil => acc
  | .cons sib rest =>
    if isNamed "h2" sib then acc
    else if isNamed "h4" sib && sib.classTokens == ["departementTitre"] then
      region_block_scan (department_scan acc rest) rest
    else region_block_scan acc rest

mutual
/-- Lines 112-116: the first `<h2>` (in document order) whose stripped text
equals the region name; the result is its list of following siblings
(`region_h2.next_siblings`). -/
def findRegionH2InNode (region : String) : Node → Option NodeList
  | .text _ => none
  | .elem _ _ _ ch => findRegionH2InList region ch

def findRegionH2InList (region : String) : NodeList → Option NodeList
  | .nil => none
  | .cons n ns =>
    if isNamed "h2" n && nodeText n == region then some ns
    else
      match findRegionH2InNode region n with
      | some r => some r
      | none => findRegionH2InList region ns
end

/-- The pure parsing part of `get_deputes_from_region` (lines 109-148),
given the already-parsed roster document. -/
def parse_roster_page (region : String) (doc : NodeList) : List (String × String) :=
  match findRegionH2InList region doc with
  | none => []
  | some sibs => region_block_scan [] sibs

/-- `get_deputes_from_region(region, …)`: empty mapping when the roster
fetch failed, else the parse of the fetched document. -/
def get_deputes_from_region (region : String) (page : Option NodeList) :
    List (String × String) :=
  match page with
  | none => []
  | some doc => parse_roster_page region doc

/-! ## The detail extractor (`get_depute_info`, lines 151-224) -/

/-- One extracted record (`nom`, `region` always present; the other three
fields independently nullable). -/
structure Record where
  nom : String
  region : String
  email : Option String
  groupe : Option String
  circonscription : Option String
deriving DecidableEq, Repr

/-- The literal part of the pattern `/deputes/fiche/OMC_PA(\d+)`. -/
def fichePattern : List Char := "/deputes/fiche/OMC_PA".data

/-- The maximal leading run of decimal digits (the greedy `(\d+)` group). -/
def leadingDigits : List Char → List Char
  | [] => []
  | c :: cs => if c.isDigit then c :: leadingDigits cs else []

/-- `re.search(r"/deputes/fiche/OMC_PA(\d+)", url)`: at the leftmost
position where the literal prefix matches and at least one digit follows,
capture the maximal digit run; otherwise keep searching. -/
def searchOMC : List Char → Option (List Char)
  | [] => none
  | c :: cs =>
    if fichePattern.isPrefixOf (c :: cs) then
      let ds := leadingDigits ((c :: cs).drop fichePattern.length)
      if ds.isEmpty then searchOMC cs else some ds
    else searchOMC cs

/-- Group 1 of the `OMC_PA` identifier pattern, when `url` matches. -/
def extractOMCId (url : String) : Option String :=
  (searchOMC url.data).map fun ds => (⟨ds⟩ : String)

/-- Predicate for `soup.find("a", href=re.compile(r"^mailto:"))`. -/
def mailtoLink (t : String) (_cls : List String) (h : Option String) : Bool :=
  t == "a" && (match h with | some s => pyStartsWith s "mailto:" | none => false)

/-- Predicate for `soup.find("a", class_="h4 _colored link")`. -/
def groupAnchor (t : String) (cls : List String) (_h : Option String) : Bool :=
  t == "a" && bs4ClassMatch cls "h4 _colored link"

/-- Predicate for `soup.find("div", class_="_mb-small _centered-text")`. -/
def circContainer (t : String) (cls : List String) (_h : Option String) : Bool :=
  t == "div" && bs4ClassMatch cls "_mb-small _centered-text"

/-- Predicate for `circ_div.find("span", class_="_big")`. -/
def bigSpan (t : String) (cls : List String) (_h : Option String) : Bool :=
  t == "span" && bs4ClassMatch cls "_big"

/-- Lines 198-224: parse email, group and district out of a fetched detail
page. -/
def parse_detail_page (name region : String) (doc : NodeList) : Record :=
  let email := (bsFindList mailtoLink doc).map fun a => pyRemove a.hrefD "mailto:"
  let group := (bsFindList groupAnchor doc).map fun g => nodeText g
  let circonscription :=
    match bsFindList circContainer doc with
    | none => none
    | some d =>
      match bsFindList bigSpan d.childNodes with
      | none => none
      | some sp => some (nodeText sp)
  ⟨name, region, email, group, circonscription⟩

/-- `get_depute_info(name, url, region, …)`: derive the canonical detail
URL from the listing href, fetch it, and parse the three optional fields;
on identifier-extraction failure or fetch failure return a record with all
optional fields null.  The second component records the URLs actually
fetched (empty exactly when no fetch was performed). -/
def get_depute_info (name url region : String) (fetch : String → Option NodeList) :
    Record × List String :=
  match extractOMCId url with
  | none => (⟨name, region, none, none, none⟩, [])
  | some digits =>
    let dyn_url := BASE_URL ++ "/dyn/deputes/PA" ++ digits
    match fetch dyn_url with
    | none => (⟨name, region, none, none, none⟩, [dyn_url])
    | some doc => (parse_detail_page name region doc, [dyn_url])

/-! ## The dispatcher (`scrape_deputes` step 2, lines 317-350)

In sequential mode the records are produced in input order; in concurrent
mode one task is submitted per reference and the records are appended in
completion order, modelled by an arbitrary permutation `completed` of the
input references.  `get_depute_info` is total, so extraction is a total
function here: individual failures still yield a record. -/

def scrape_dispatch (extract : String × String × String → Record)
    (refs : List (String × String × String)) (multithreading : Bool)
    (completed : List (String × String × String)) : List Record :=
  if multithreading then completed.map extract else refs.map extract

/-! ## The formatter (`build_ascii_table`, lines 227-266, and
`scrape_deputes` step 3, lines 352-363) -/

/-- `dep.get(f, "") or ""`: total field lookup on a record dict, rendering
a missing key or a `None` value as the empty string. -/
def recGet (dep : Record) (f : String) : String :=
  if f == "nom" then dep.nom
  else if f == "region" then dep.region
  else if f == "email" then dep.email.getD ""
  else if f == "groupe" then dep.groupe.getD ""
  else if f == "circonscription" then dep.circonscription.getD ""
  else ""

/-- The fixed 40-dash separator line appended after each record. -/
def dashSep : String := ⟨List.replicate 40 '-'⟩

/-- Lines 352-363: the line-oriented output — for each record one line per
selected field (bare value, or `Label: value`), then the separator line. -/
def format_lines (results : List Record) (fields : List String) (barefields : Bool) :
    List String :=
  results.flatMap fun dep =>
    (fields.map fun f =>
      if barefields then recGet dep f else pyCapitalize f ++ ": " ++ recGet dep f)
      ++ [dashSep]

/-- The joined line-oriented output (`"\n".join(lines)`). -/
def line_output (results : List Record) (fields : List String) (barefields : Bool) :
    String :=
  String.intercalate "\n" (format_lines results fields barefields)

/-- `build_ascii_table(results, fields)` (lines 227-266): header row of
capitalized labels, per-column widths maximised over all rows, cells
left-justified and joined with `" | "`, and a dash separator row inserted
after the header row.  `max()` over the rows is `foldl max 0` (all rows are
present and widths are naturals), and the index access `rows[r][c]` is
total because every row has exactly `len(fields)` cells. -/
def build_ascii_table (results : List Record) (fields : List String) : String :=
  let header := fields.map pyCapitalize
  let rows := header :: results.map fun dep => fields.map fun f => recGet dep f
  let col_widths := (List.range fields.length).map fun c =>
    (rows.map fun row => ((row.get? c).getD "").length).foldl max 0
  let renderRow := fun (row : List String) =>
    String.intercalate " | " ((row.zip col_widths).map fun pr => pyLjust pr.1 pr.2)
  let sep := String.intercalate "-+-" (col_widths.map fun w => (⟨List.replicate w '-'⟩ : String))
  String.intercalate "\n"
    (rows.enum.flatMap fun pr => renderRow pr.2 :: (if pr.1 == 0 then [sep] else []))

/-! ## Properties of the retrying fetcher -/

/-- Helper: a failing attempt outcome is an `error`. -/
theorem fetchFails_error {r : Except String String} (h : fetchFails r = true) :
    ∃ e, r = .error e := by
  cases r with
  | ok b => simp [fetchFails] at h
  | error e => exact ⟨e, rfl⟩

/-- Helper: the loop run when every attempt in scope fails. -/
theorem retries_go_allfail (target : Nat → Except String String) (m : Nat) (delay : ℚ) :
    ∀ remaining attempt, attempt + remaining = m + 1 →
      (∀ i, attempt ≤ i → i ≤ m → fetchFails (target i) = true) →
      (get_with_retries_go target m delay attempt remaining).1 = none ∧
      (get_with_retries_go target m delay attempt remaining).2.filter FetchEvent.isAttempt
        = (List.range' attempt remaining).map FetchEvent.attempt ∧
      ((get_with_retries_go target m delay attempt remaining).2.filter FetchEvent.isSleep).length
        = if 0 < delay then remaining - 1 else 0
  | 0, attempt, _, _ => by
      simp [get_with_retries_go]
  | remaining + 1, attempt, hinv, hfail => by
      have hle : attempt ≤ m := by omega
      obtain ⟨e, he⟩ := fetchFails_error (hfail attempt le_rfl hle)
      obtain ⟨ih1, ih2, ih3⟩ := retries_go_allfail target m delay remaining (attempt + 1)
        (by omega) (fun i h1 h2 => hfail i (by omega) h2)
      refine ⟨by simp [get_with_retries_go, he, ih1], ?_, ?_⟩
      · rw [List.range'_succ]
        by_cases hc : attempt < m ∧ 0 < delay <;>
          simp [get_with_retries_go, he, hc, List.filter_append, FetchEvent.isAttempt, ih2]
      · by_cases hm : attempt < m <;> by_cases hd : 0 < delay <;>
          simp [get_with_retries_go, he, hm, hd, List.filter_append, FetchEvent.isSleep, ih3] <;>
          omega

/-- Helper: the loop run when the first success is at attempt `k`. -/
theorem retries_go_success (target : Nat → Except String String) (m : Nat) (delay : ℚ)
    (k : Nat) (body : String) (hok : target k = .ok body) (hkm : k ≤ m) :
    ∀ remaining attempt, attempt + remaining = m + 1 → attempt ≤ k →
      (∀ i, attempt ≤ i → i < k → fetchFails (target i) = true) →
      (get_with_retries_go target m delay attempt remaining).1 = some body ∧
      (get_with_retries_go target m delay attempt remaining).2.filter FetchEvent.isAttempt
        = (List.range' attempt (k - attempt + 1)).map FetchEvent.attempt ∧
      (get_with_retries_go target m delay attempt remaining).2.getLast?
        = some (FetchEvent.attempt k) ∧
      ((get_with_retries_go target m delay attempt remaining).2.filter FetchEvent.isSleep).length
        = if 0 < delay then k - attempt else 0
  | 0, attempt, hinv, hak, _ => by omega
  | remaining + 1, attempt, hinv, hak, hfail => by
      by_cases hek : attempt = k
      · subst hek
        simp [get_with_retries_go, hok, FetchEvent.isAttempt, FetchEvent.isSleep,
          List.range'_succ]
      · have hlt : attempt < k := by omega
        obtain ⟨e, he⟩ := fetchFails_error (hfail attempt le_rfl hlt)
        obtain ⟨ih1, ih2, ih3, ih4⟩ := retries_go_success target m delay k body hok hkm
          remaining (attempt + 1) (by omega) (by omega)
          (fun i h1 h2 => hfail i (by omega) h2)
        have hm : attempt < m := by omega
        have hcount : k - attempt + 1 = (k - (attempt + 1) + 1) + 1 := by omega
        refine ⟨by simp [get_with_retries_go, he, ih1], ?_, ?_, ?_⟩
        · rw [hcount, List.range'_succ]
          by_cases hd : 0 < delay <;>
            simp [get_with_retries_go, he, hm, hd, List.filter_append,
              FetchEvent.isAttempt, ih2]
        · have hne : (get_with_retries_go target m delay (attempt + 1) remaining).2 ≠ [] := by
            intro hnil
            rw [hnil] at ih3
            simp at ih3
          have hx : ∀ x : FetchEvent,
              (x :: (get_with_retries_go target m delay (attempt + 1) remaining).2).getLast?
                = some (FetchEvent.attempt k) := by
            intro x
            rw [show x :: (get_with_retries_go target m delay (attempt + 1) remaining).2
                  = [x] ++ (get_with_retries_go target m delay (attempt + 1) remaining).2 from rfl,
              List.getLast?_append_of_ne_nil _ hne, ih3]
          by_cases hd : 0 < delay <;>
            simp [get_with_retries_go, he, hm, hd, List.cons_append, hx]
        · by_cases hd : 0 < delay <;>
            simp [get_with_retries_go, he, hm, hd, List.filter_append,
              FetchEvent.isSleep, ih4] <;>
          omega

/-- C2: with `maxAttempts = n ≥ 1`, if every attempt fails the fetcher
performs exactly the attempts `1, …, n` and returns the failure outcome
with `n - 1` sleeps when `delayBetween > 0` (none otherwise); if the target
first succeeds at attempt `k ≤ n`, exactly the attempts `1, …, k` occur,
the body is returned, the trace ends with attempt `k` (no sleep after the
success), and `k - 1` sleeps happened when `delayBetween > 0`. -/
theorem retry_attempt_count (target : Nat → Except String String) (n : Nat) (delay : ℚ)
    (hn : 1 ≤ n) :
    ((∀ i, 1 ≤ i → i ≤ n → fetchFails (target i) = true) →
      (get_with_retries target n delay).1 = none ∧
      (get_with_retries target n delay).2.filter FetchEvent.isAttempt
        = (List.range' 1 n).map FetchEvent.attempt ∧
      ((get_with_retries target n delay).2.filter FetchEvent.isSleep).length
        = if 0 < delay then n - 1 else 0) ∧
    (∀ k body, 1 ≤ k → k ≤ n → target k = .ok body →
      (∀ i, 1 ≤ i → i < k → fetchFails (target i) = true) →
      (get_with_retries target n delay).1 = some body ∧
      (get_with_retries target n delay).2.filter FetchEvent.isAttempt
        = (List.range' 1 k).map FetchEvent.attempt ∧
      (get_with_retries target n delay).2.getLast? = some (FetchEvent.attempt k) ∧
      ((get_with_retries target n delay).2.filter FetchEvent.isSleep).length
        = if 0 < delay then k - 1 else 0) := by
  constructor
  · intro hfail
    exact retries_go_allfail target n delay n 1 (by omega) hfail
  · intro k body hk1 hkn hok hfail
    have h := retries_go_success target n delay k body hok hkn n 1 (by omega) hk1 hfail
    have hcount : k - 1 + 1 = k := by omega
    rw [hcount] at h
    exact h

/-- Witness for C2 at concrete inputs: a target failing both of 2 attempts
(with a positive delay, so one sleep), and a target succeeding at attempt 2
of 3. -/
theorem retry_attempt_count_witness :
    (get_with_retries (fun _ => Except.error "boom") 2 1).1 = none ∧
    (get_with_retries (fun _ => Except.error "boom") 2 1).2
      = [FetchEvent.attempt 1, FetchEvent.sleep, FetchEvent.attempt 2] ∧
    (get_with_retries (fun i => if i = 2 then Except.ok "page" else Except.error "boom") 3 1).1
      = some "page" ∧
    (get_with_retries (fun i => if i = 2 then Except.ok "page" else Except.error "boom") 3 1).2.getLast?
      = some (FetchEvent.attempt 2) := by
  have h1 := (retry_attempt_count (fun _ => Except.error "boom") 2 1 (by norm_num)).1
    (fun i _ _ => rfl)
  have h2 := (retry_attempt_count
      (fun i => if i = 2 then Except.ok "page" else Except.error "boom") 3 1 (by norm_num)).2
    2 "page" (by norm_num) (by norm_num) rfl
    (fun i hi1 hi2 => by
      have : i = 1 := by omega
      subst this
      rfl)
  exact ⟨h1.1, by decide, h2.1, h2.2.2.1⟩

/-- Counterexample for C7: `get_with_retries` does not return a tagged
`Failure` carrying the most recent error — it returns the nullable empty
outcome `none`.  Two always-failing targets whose (most recent) errors
differ — `"timeout"` vs `"connection refused"` — produce byte-for-byte
identical results, so the returned value cannot carry the most recent
error. -/
theorem failure_outcome_carries_no_error :
    (get_with_retries (fun _ => Except.error "timeout") 2 0).1 = none ∧
    get_with_retries (fun _ => Except.error "timeout") 2 0
      = get_with_retries (fun _ => Except.error "connection refused") 2 0 := by
  exact ⟨rfl, rfl⟩

/-- C7 as amended: when all attempts fail, the Retrying Fetcher returns the
nullable empty outcome `None`, which carries no error information (the
result of the run is a function of `maxAttempts` and `delayBetween` alone,
identical for any two always-failing targets; the last error appears only
in a printed diagnostic); callers branch explicitly on the null check
rather than receiving an exception — in particular the listing extractor
maps a failed roster fetch to the empty mapping. -/
theorem failure_outcome_is_none (t1 t2 : Nat → Except String String) (n : Nat) (delay : ℚ)
    (hn : 1 ≤ n)
    (h1 : ∀ i, 1 ≤ i → i ≤ n → fetchFails (t1 i) = true)
    (h2 : ∀ i, 1 ≤ i → i ≤ n → fetchFails (t2 i) = true) :
    (get_with_retries t1 n delay).1 = none ∧
    get_with_retries t1 n delay = get_with_retries t2 n delay ∧
    (∀ region, get_deputes_from_region region none = []) := by
  have key : ∀ t : Nat → Except String String,
      (∀ i, 1 ≤ i → i ≤ n → fetchFails (t i) = true) →
      ∀ remaining attempt, 1 ≤ attempt → attempt + remaining = n + 1 →
        get_with_retries_go t n delay attempt remaining
          = get_with_retries_go (fun _ => Except.error "") n delay attempt remaining := by
    intro t ht remaining
    induction remaining with
    | zero => intro attempt ha hinv; rfl
    | succ r ih =>
      intro attempt ha hinv
      obtain ⟨e, he⟩ := fetchFails_error (ht attempt (by omega) (by omega))
      simp [get_with_retries_go, he, ih (attempt + 1) (by omega) (by omega)]
  refine ⟨(retries_go_allfail t1 n delay n 1 (by omega) h1).1, ?_, fun region => rfl⟩
  unfold get_with_retries
  rw [key t1 h1 n 1 (by omega) (by omega), key t2 h2 n 1 (by omega) (by omega)]

/-- Witness for C7 (amended) at concrete always-failing targets. -/
theorem failure_outcome_is_none_witness :
    (get_with_retries (fun _ => Except.error "dns") 3 1).1 = none ∧
    get_with_retries (fun _ => Except.error "dns") 3 1
      = get_with_retries (fun _ => Except.error "reset") 3 1 := by
  have h := failure_outcome_is_none (fun _ => Except.error "dns")
    (fun _ => Except.error "reset") 3 1 (by norm_num) (fun i _ _ => rfl) (fun i _ _ => rfl)
  exact ⟨h.1, h.2.1⟩

/-! ## Properties of the dispatcher -/

/-- C3: the dispatcher produces exactly one record per input reference —
the result length equals the input length in sequential mode and, for any
completion order (a permutation of the submitted references, one task per
reference), in concurrent mode as well; extraction is a total function
(`get_depute_info` always returns a record), so no failure drops a
reference.  This holds for any input, including the empty list. -/
theorem dispatch_preserves_count (extract : String × String × String → Record)
    (refs completed : List (String × String × String)) (multithreading : Bool)
    (hperm : completed.Perm refs) :
    (scrape_dispatch extract refs multithreading completed).length = refs.length := by
  cases multithreading <;> simp [scrape_dispatch, hperm.length_eq]

/-- Witness for C3: two references dispatched concurrently, completing in
reversed order, still yield two records (and sequentially likewise). -/
theorem dispatch_preserves_count_witness :
    (scrape_dispatch (fun r => ⟨r.1, r.2.2, none, none, none⟩)
      [("a", "u", "r1"), ("b", "v", "r2")] true
      [("b", "v", "r2"), ("a", "u", "r1")]).length = 2 ∧
    (scrape_dispatch (fun r => ⟨r.1, r.2.2, none, none, none⟩)
      [("a", "u", "r1"), ("b", "v", "r2")] false
      [("b", "v", "r2"), ("a", "u", "r1")]).length = 2 := by
  constructor
  · exact dispatch_preserves_count _ _ _ true (by decide)
  · exact dispatch_preserves_count _ _ _ false (by decide)

/-! ## Properties of the detail extractor -/

/-- C4: `get_depute_info` always returns a record; when the `OMC_PA`
identifier cannot be extracted from the listing href it returns a record
with all optional fields null without fetching anything (the fetched-URL
trace is empty), and when the fetch of the canonical URL fails (all
retries exhausted, modelled by `fetch` returning `none`) it returns the
same all-null record having fetched only the canonical URL; in both cases
`nom` and `region` are the input arguments. -/
theorem detail_extractor_degrades_to_null (name url region : String)
    (fetch : String → Option NodeList) :
    (extractOMCId url = none →
      get_depute_info name url region fetch = (⟨name, region, none, none, none⟩, [])) ∧
    (∀ digits, extractOMCId url = some digits →
      fetch (BASE_URL ++ "/dyn/deputes/PA" ++ digits) = none →
      get_depute_info name url region fetch
        = (⟨name, region, none, none, none⟩, [BASE_URL ++ "/dyn/deputes/PA" ++ digits])) := by
  constructor
  · intro h
    simp [get_depute_info, h]
  · intro digits h hf
    simp [get_depute_info, h, hf]

/-- Witness for C4: a listing href without the identifier pattern (no
fetch), and one with identifier `123` whose canonical URL fetch fails. -/
theorem detail_extractor_degrades_to_null_witness :
    get_depute_info "Jean Dupont" "https://www.assemblee-nationale.fr/autre/page"
      "Bretagne" (fun _ => none)
      = (⟨"Jean Dupont", "Bretagne", none, none, none⟩, []) ∧
    get_depute_info "Jean Dupont" "https://www.assemblee-nationale.fr/deputes/fiche/OMC_PA123"
      "Bretagne" (fun _ => none)
      = (⟨"Jean Dupont", "Bretagne", none, none, none⟩,
         ["https://www.assemblee-nationale.fr/dyn/deputes/PA123"]) := by
  constructor
  · exact (detail_extractor_degrades_to_null "Jean Dupont"
      "https://www.assemblee-nationale.fr/autre/page" "Bretagne" (fun _ => none)).1 (by decide)
  · have h := (detail_extractor_degrades_to_null "Jean Dupont"
      "https://www.assemblee-nationale.fr/deputes/fiche/OMC_PA123" "Bretagne"
      (fun _ => none)).2 "123" (by decide) rfl
    exact h.trans (by decide)

mutual
/-- Helper: `find` returns nothing on a node containing no match. -/
theorem bsFindNode_eq_none (p : String → List String → Option String → Bool) (n : Node)
    (h : nodeAny p n = false) : bsFindNode p n = none := by
  cases n with
  | text s => rfl
  | elem t cls hr ch =>
    rw [nodeAny] at h
    simp only [Bool.or_eq_false_iff] at h
    simp [bsFindNode, h.1, bsFindList_eq_none p ch h.2]

theorem bsFindList_eq_none (p : String → List String → Option String → Bool) (ns : NodeList)
    (h : listAny p ns = false) : bsFindList p ns = none := by
  cases ns with
  | nil => rfl
  | cons n ns' =>
    rw [listAny] at h
    simp only [Bool.or_eq_false_iff] at h
    simp [bsFindList, bsFindNode_eq_none p n h.1, bsFindList_eq_none p ns' h.2]
end

/-- Helper: `find` skips a prefix of siblings containing no match. -/
theorem bsFindList_append_of_none (p : String → List String → Option String → Bool)
    (ys : NodeList) :
    ∀ xs : NodeList, listAny p xs = false → bsFindList p (xs ++ ys) = bsFindList p ys
  | .nil, _ => by rw [NodeList.nil_append]
  | .cons n ns, h => by
    rw [listAny] at h
    simp only [Bool.or_eq_false_iff] at h
    rw [NodeList.cons_append]
    simp [bsFindList, bsFindNode_eq_none p n h.1, bsFindList_append_of_none p ys ns h.2]

/-- C8 as amended: the email is computed from the first link (in document
order) whose target begins with `mailto:` by removing every occurrence of
the substring `mailto:` from the target — Python's `str.replace`, not a
prefix strip — and is null when no such link exists anywhere on the page. -/
theorem email_strips_every_mailto (name region h : String) (cls : List String)
    (ch pre rest : NodeList)
    (hpre : listAny mailtoLink pre = false)
    (hh : pyStartsWith h "mailto:" = true) :
    (parse_detail_page name region
        (pre ++ NodeList.cons (Node.elem "a" cls (some h) ch) rest)).email
      = some (pyRemove h "mailto:") ∧
    (∀ doc, listAny mailtoLink doc = false →
      (parse_detail_page name region doc).email = none) := by
  constructor
  · have hfind : bsFindList mailtoLink
        (pre ++ NodeList.cons (Node.elem "a" cls (some h) ch) rest)
        = some (Node.elem "a" cls (some h) ch) := by
      rw [bsFindList_append_of_none mailtoLink _ pre hpre]
      simp [bsFindList, bsFindNode, mailtoLink, hh]
    simp [parse_detail_page, hfind, Node.hrefD]
  · intro doc hdoc
    simp [parse_detail_page, bsFindList_eq_none mailtoLink doc hdoc]

/-- Witness for C8 (amended): the mail link is found behind an unrelated
sibling and its target is stripped of the prefix; a page without any mail
link yields a null email. -/
theorem email_strips_every_mailto_witness :
    (parse_detail_page "N" "R"
        (NodeList.cons (Node.elem "div" [] none NodeList.nil) NodeList.nil
          ++ NodeList.cons (Node.elem "a" [] (some "mailto:a@b.fr") NodeList.nil)
              NodeList.nil)).email
      = some "a@b.fr" ∧
    (parse_detail_page "N" "R"
        (NodeList.cons (Node.elem "p" [] none NodeList.nil) NodeList.nil)).email = none := by
  have h := email_strips_every_mailto "N" "R" "mailto:a@b.fr" [] NodeList.nil
    (NodeList.cons (Node.elem "div" [] none NodeList.nil) NodeList.nil) NodeList.nil
    (by decide) (by decide)
  exact ⟨h.1.trans (by decide), h.2 _ (by decide)⟩

/-- Following the specification's words for the email rule of C8: strip
only the leading mail-link scheme prefix from the target, leaving the rest
of the address unchanged. -/
def stripLeadingScheme (h : String) : String :=
  if pyStartsWith h "mailto:" then ⟨h.data.drop "mailto:".data.length⟩ else h

/-- Counterexample for C8 as stated: on a link target in which `mailto:`
also occurs after the prefix, the code's `str.replace("mailto:", "")`
removes the inner occurrence as well, so the extracted email differs from
the spec's leading-occurrence strip. -/
theorem email_strip_not_leading_only :
    (parse_detail_page "N" "R"
        (NodeList.cons (Node.elem "a" [] (some "mailto:mailto:jean@example.fr") NodeList.nil)
          NodeList.nil)).email
      = some "jean@example.fr" ∧
    stripLeadingScheme "mailto:mailto:jean@example.fr" = "mailto:jean@example.fr" ∧
    ("jean@example.fr" : String) ≠ "mailto:jean@example.fr" := by
  refine ⟨by decide, by decide, by decide⟩

/-- C5 as amended: the district container is matched only through the
two-token class attribute (a token list whose space-joined rendering is
`_mb-small _centered-text`); the dotted single-token rendering
`_mb-small._centered-text` of the same two classes is not matched, so on a
page using the dotted variant the district is null even though the nested
`_big` span is present. -/
theorem district_two_token_variant_only (name region t : String) (ht : pyStrip t = t) :
    (parse_detail_page name region
        (NodeList.cons (Node.elem "div" ["_mb-small", "_centered-text"] none
          (NodeList.cons (Node.elem "span" ["_big"] none
            (NodeList.cons (Node.text t) NodeList.nil)) NodeList.nil)) NodeList.nil)).circonscription
      = some t ∧
    (parse_detail_page name region
        (NodeList.cons (Node.elem "div" ["_mb-small._centered-text"] none
          (NodeList.cons (Node.elem "span" ["_big"] none
            (NodeList.cons (Node.text t) NodeList.nil)) NodeList.nil)) NodeList.nil)).circonscription
      = none := by
  have h1 : bs4ClassMatch ["_mb-small", "_centered-text"] "_mb-small _centered-text" = true := by
    decide
  have h2 : bs4ClassMatch ["_mb-small._centered-text"] "_mb-small _centered-text" = false := by
    decide
  have h3 : bs4ClassMatch ["_big"] "_mb-small _centered-text" = false := by decide
  have h4 : bs4ClassMatch ["_big"] "_big" = true := by decide
  constructor
  · simp [parse_detail_page, bsFindList, bsFindNode, circContainer, bigSpan, h1, h4,
      Node.childNodes, nodeText, listText, ht]
  · simp [parse_detail_page, bsFindList, bsFindNode, circContainer, bigSpan, h2, h3,
      Node.childNodes]

/-- Witness for C5 (amended) at a concrete district text. -/
theorem district_two_token_variant_only_witness :
    (parse_detail_page "N" "R"
        (NodeList.cons (Node.elem "div" ["_mb-small", "_centered-text"] none
          (NodeList.cons (Node.elem "span" ["_big"] none
            (NodeList.cons (Node.text "1re circonscription") NodeList.nil)) NodeList.nil))
          NodeList.nil)).circonscription
      = some "1re circonscription" ∧
    (parse_detail_page "N" "R"
        (NodeList.cons (Node.elem "div" ["_mb-small._centered-text"] none
          (NodeList.cons (Node.elem "span" ["_big"] none
            (NodeList.cons (Node.text "1re circonscription") NodeList.nil)) NodeList.nil))
          NodeList.nil)).circonscription
      = none :=
  district_two_token_variant_only "N" "R" "1re circonscription" (by decide)

/-- Counterexample for C5 as stated: the claim asserts that the detail
extractor accepts the dotted single-token rendering of the district
container's classes; on a page using exactly that rendering (with the
nested `_big` span present and non-empty) the extractor returns a null
district, while the two-token variant of the same page yields the text. -/
theorem district_dotted_variant_not_matched :
    (parse_detail_page "N" "R"
        (NodeList.cons (Node.elem "div" ["_mb-small._centered-text"] none
          (NodeList.cons (Node.elem "span" ["_big"] none
            (NodeList.cons (Node.text "2e circonscription") NodeList.nil)) NodeList.nil))
          NodeList.nil)).circonscription
      = none ∧
    (parse_detail_page "N" "R"
        (NodeList.cons (Node.elem "div" ["_mb-small", "_centered-text"] none
          (NodeList.cons (Node.elem "span" ["_big"] none
            (NodeList.cons (Node.text "2e circonscription") NodeList.nil)) NodeList.nil))
          NodeList.nil)).circonscription
      = some "2e circonscription" := by
  refine ⟨by decide, by decide⟩

/-! ## Properties of the formatter -/

/-- Helper: every record contributes `len(fields) + 1` output lines (its
field lines plus the separator), in every configuration. -/
theorem format_lines_length (fields : List String) (bare : Bool) :
    ∀ results : List Record,
      (format_lines results fields bare).length = results.length * (fields.length + 1)
  | [] => by simp [format_lines]
  | dep :: rest => by
    have ih := format_lines_length fields bare rest
    simp only [format_lines, List.flatMap_cons] at ih ⊢
    simp [ih]
    ring

/-- Helper: the last output line of a non-empty run is the separator, in
every configuration. -/
theorem format_lines_getLast (fields : List String) (bare : Bool) :
    ∀ results : List Record, results ≠ [] →
      (format_lines results fields bare).getLast? = some dashSep
  | [], h => absurd rfl h
  | dep :: rest, _ => by
    cases rest with
    | nil =>
      simp only [format_lines, List.flatMap_cons, List.flatMap_nil, List.append_nil]
      exact List.getLast?_concat _
    | cons d2 r2 =>
      have ih := format_lines_getLast fields bare (d2 :: r2) (by simp)
      have hne : format_lines (d2 :: r2) fields bare ≠ [] := by
        simp [format_lines, List.flatMap_cons]
      calc (format_lines (dep :: d2 :: r2) fields bare).getLast?
          = (format_lines (d2 :: r2) fields bare).getLast? := by
            rw [show format_lines (dep :: d2 :: r2) fields bare
                = ((fields.map fun f => if bare then recGet dep f
                    else pyCapitalize f ++ ": " ++ recGet dep f) ++ [dashSep])
                  ++ format_lines (d2 :: r2) fields bare from rfl]
            exact List.getLast?_append_of_ne_nil _ hne
        _ = some dashSep := ih

/-- C6 as amended: the line-oriented output emits the 40-dash separator
line after each record's field lines in every configuration — there is no
suppression option, and bare mode with the single field selection
`["email"]` is no exception: on two records with emails `e1`, `e2` the
output is `e1\n<40 dashes>\ne2\n<40 dashes>`, not `e1\ne2`. -/
theorem separator_always_emitted (results : List Record) (fields : List String)
    (bare : Bool) (e1 e2 : String) :
    (format_lines results fields bare).length = results.length * (fields.length + 1) ∧
    (results ≠ [] → (format_lines results fields bare).getLast? = some dashSep) ∧
    line_output [⟨"A", "R", some e1, none, none⟩, ⟨"B", "R", some e2, none, none⟩]
        ["email"] true
      = e1 ++ "\n" ++ dashSep ++ "\n" ++ e2 ++ "\n" ++ dashSep := by
  refine ⟨format_lines_length fields bare results, format_lines_getLast fields bare results, rfl⟩

/-- Witness for C6 (amended) at concrete values. -/
theorem separator_always_emitted_witness :
    (format_lines [⟨"A", "R", some "a@x.fr", none, none⟩] ["email"] true).length = 2 ∧
    (format_lines [⟨"A", "R", some "a@x.fr", none, none⟩] ["email"] true).getLast?
      = some dashSep := by
  have h := separator_always_emitted [⟨"A", "R", some "a@x.fr", none, none⟩] ["email"]
    true "x" "y"
  exact ⟨h.1.trans (by decide), h.2.1 (by decide)⟩

/-- Counterexample for C6 as stated: bare mode with the single field
selection `["email"]` on two records with emails `a@x.fr` and `b@x.fr`
does not yield `"a@x.fr\nb@x.fr"` — the code has no separator-suppression
configuration and unconditionally appends the 40-dash separator line after
each record. -/
theorem separator_not_suppressed_example :
    line_output [⟨"A", "R", some "a@x.fr", none, none⟩, ⟨"B", "R", some "b@x.fr", none, none⟩]
        ["email"] true
      = "a@x.fr\n----------------------------------------\nb@x.fr\n----------------------------------------" ∧
    line_output [⟨"A", "R", some "a@x.fr", none, none⟩, ⟨"B", "R", some "b@x.fr", none, none⟩]
        ["email"] true
      ≠ "a@x.fr\nb@x.fr" := by
  refine ⟨by decide, by decide⟩

/-- The column width the spec describes: the maximum rendered width over
the header cell and all value cells of the column of field `f`. -/
def fieldColumnWidth (results : List Record) (f : String) : Nat :=
  results.foldl (fun m dep => max m (recGet dep f).length) (pyCapitalize f).length

/-- Helper: the index-based column widths computed by `build_ascii_table`
agree with the per-field maximum over header and value cells. -/
theorem table_col_widths (results : List Record) (fields : List String) :
    ((List.range fields.length).map fun c =>
      (((fields.map pyCapitalize) ::
          results.map fun dep => fields.map fun f => recGet dep f).map
        fun row => ((row.get? c).getD "").length).foldl max 0)
    = fields.map (fieldColumnWidth results) := by
  apply List.ext_getElem
  · simp
  intro i h1 h2
  have hi : i < fields.length := by simpa using h2
  simp only [List.getElem_map, List.getElem_range]
  have hget : ∀ g : String → String, (((fields.map g).get? i).getD "") = g fields[i] := by
    intro g
    rw [List.get?_eq_getElem?, List.getElem?_map, List.getElem?_eq_getElem hi]
    rfl
  rw [List.map_cons, hget pyCapitalize, List.map_map]
  have hrow : (results.map
        ((fun row => ((row.get? i).getD "").length) ∘ fun dep => fields.map fun f => recGet dep f))
      = results.map fun dep => (recGet dep fields[i]).length := by
    apply List.map_congr_left
    intro dep _
    simp only [Function.comp]
    rw [hget (recGet dep)]
  rw [hrow, List.foldl_cons, Nat.zero_max, List.foldl_map]
  rfl

/-- Helper: enumeration indices shifted past the header never re-trigger
the separator insertion. -/
theorem table_lines_tail (render : List String → String) (sep : String) :
    ∀ (l : List (List String)) (k : Nat),
      (List.enumFrom (k + 1) l).flatMap (fun pr => render pr.2 :: (if pr.1 == 0 then [sep] else []))
        = l.map render
  | [], _ => rfl
  | row :: rest, k => by
    rw [List.enumFrom_cons, List.flatMap_cons]
    have hk : ((k + 1) == 0) = false := by simp
    simp only [hk, Bool.false_eq_true, if_false]
    rw [table_lines_tail render sep rest (k + 1)]
    rfl

/-- Helper: the sibling-rows part of the table line list, starting right
after the header at index 1. -/
theorem table_lines_tail_one (render : List String → String) (sep : String)
    (l : List (List String)) :
    (List.enumFrom 1 l).flatMap (fun pr => render pr.2 :: (if pr.1 == 0 then [sep] else []))
      = l.map render := by
  simpa using table_lines_tail render sep l 0

/-- Helper: the full layout of `build_ascii_table` — capitalized header
row first, the dash separator row (joined with `-+-`, one dash run per
column, matching the column widths) immediately after it and nowhere else,
then one row per record; every cell is left-justified to the per-field
column width (the maximum of the header width and all value widths of that
column, null values rendering as the empty string) and cells are joined
with `" | "`. -/
theorem build_ascii_table_shape (results : List Record) (fields : List String) :
    build_ascii_table results fields =
      String.intercalate "\n"
        (String.intercalate " | "
            (fields.map fun f => pyLjust (pyCapitalize f) (fieldColumnWidth results f)) ::
         String.intercalate "-+-"
            (fields.map fun f =>
              ((⟨List.replicate (fieldColumnWidth results f) '-'⟩ : String))) ::
         results.map fun dep =>
           String.intercalate " | "
             (fields.map fun f => pyLjust (recGet dep f) (fieldColumnWidth results f))) := by
  simp only [build_ascii_table]
  rw [table_col_widths]
  have hrender : ∀ g : String → String,
      String.intercalate " | "
          (((fields.map g).zip (fields.map (fieldColumnWidth results))).map
            fun pr => pyLjust pr.1 pr.2)
        = String.intercalate " | "
            (fields.map fun f => pyLjust (g f) (fieldColumnWidth results f)) := by
    intro g
    rw [List.zip_map', List.map_map]
    rfl
  rw [List.enum_cons, List.flatMap_cons]
  simp only [beq_self_eq_true, if_true]
  rw [table_lines_tail_one
    (fun row => String.intercalate " | "
      ((row.zip (List.map (fieldColumnWidth results) fields)).map fun pr => pyLjust pr.1 pr.2))
    (String.intercalate "-+-"
      (List.map (fun w => ((⟨List.replicate w '-'⟩ : String)))
        (List.map (fieldColumnWidth results) fields)))
    (results.map fun dep => fields.map fun f => recGet dep f)]
  rw [hrender pyCapitalize]
  refine congrArg _ ?_
  simp only [List.cons_append, List.nil_append, List.map_map]
  refine congrArg _ ?_
  refine congrArg _ ?_
  apply List.map_congr_left
  intro dep _
  exact hrender (recGet dep)

/-- C9: for every record list and field selection, the ASCII table has the
capitalized field labels as its first row, one row per record with null
values rendered as the empty string, each column's width equal to the
maximum rendered width over the header and all value cells of that column,
cells left-justified (padded with trailing spaces to the column width) and
joined with `" | "`, and exactly one separator row of dash runs joined
with `"-+-"` matching the column widths, placed immediately after the
header row and nowhere else. -/
theorem ascii_table_layout (results : List Record) (fields : List String) :
    build_ascii_table results fields =
      String.intercalate "\n"
        (String.intercalate " | "
            (fields.map fun f => pyLjust (pyCapitalize f) (fieldColumnWidth results f)) ::
         String.intercalate "-+-"
            (fields.map fun f =>
              ((⟨List.replicate (fieldColumnWidth results f) '-'⟩ : String))) ::
         results.map fun dep =>
           String.intercalate " | "
             (fields.map fun f => pyLjust (recGet dep f) (fieldColumnWidth results f))) :=
  build_ascii_table_shape results fields

/-- Helper: left-justifying a string to its own width changes nothing. -/
theorem pyLjust_full (s : String) : pyLjust s s.length = s := by
  rw [pyLjust, Nat.sub_self]
  rw [show ((⟨List.replicate 0 ' '⟩ : String)) = "" from rfl]
  exact String.append_empty s

/-- Helper: left-justifying the empty string yields a run of spaces. -/
theorem pyLjust_empty (w : Nat) : pyLjust "" w = (⟨List.replicate w ' '⟩ : String) := by
  rw [pyLjust]
  simp [String.empty_append]

/-- C10: both renderers are total on unknown field identifiers — a
selected field that is not a key of the record dict never raises a lookup
error (`dep.get(f, "") or ""` is a total access) and renders as the empty
string, exactly like a field whose value is null: the line renderer emits
an empty value (bare) or a bare label (labeled), and the table renderer
renders an all-blank column whose width is the header width. -/
theorem unknown_field_renders_empty (f : String)
    (hf : f ∉ (["nom", "region", "email", "groupe", "circonscription"] : List String))
    (dep : Record) (results : List Record) (bare : Bool) :
    recGet dep f = "" ∧
    recGet dep f = recGet ⟨dep.nom, dep.region, none, dep.groupe, dep.circonscription⟩ "email" ∧
    format_lines results [f] bare
      = results.flatMap (fun _ => [(if bare then "" else pyCapitalize f ++ ": "), dashSep]) ∧
    build_ascii_table results [f]
      = String.intercalate "\n" (pyCapitalize f
          :: (⟨List.replicate (pyCapitalize f).length '-'⟩ : String)
          :: results.map fun _ => (⟨List.replicate (pyCapitalize f).length ' '⟩ : String)) := by
  simp only [List.mem_cons, List.not_mem_nil, or_false, not_or] at hf
  obtain ⟨h1, h2, h3, h4, h5⟩ := hf
  have hrec : ∀ d : Record, recGet d f = "" := by
    intro d
    simp [recGet, h1, h2, h3, h4, h5]
  have hw : fieldColumnWidth results f = (pyCapitalize f).length := by
    have hfold : ∀ (l : List Record) (a : Nat),
        List.foldl (fun m dep => max m (recGet dep f).length) a l = a := by
      intro l
      induction l with
      | nil => intro a; rfl
      | cons d rest ih =>
        intro a
        rw [List.foldl_cons, hrec d]
        simpa using ih a
    exact hfold results _
  refine ⟨hrec dep, by rw [hrec dep]; simp [recGet], ?_, ?_⟩
  · have hblock : ∀ d : Record,
        (([f].map fun fl =>
          if bare then recGet d fl else pyCapitalize fl ++ ": " ++ recGet d fl) ++ [dashSep])
          = [(if bare then "" else pyCapitalize f ++ ": "), dashSep] := by
      intro d
      cases bare <;> simp [hrec d, String.append_empty]
    simp only [format_lines, hblock]
  · rw [build_ascii_table_shape]
    simp only [List.map_cons, List.map_nil]
    rw [hw]
    rw [show String.intercalate " | " [pyLjust (pyCapitalize f) (pyCapitalize f).length]
        = pyLjust (pyCapitalize f) (pyCapitalize f).length from rfl]
    rw [pyLjust_full]
    rw [show String.intercalate "-+-"
          [(⟨List.replicate (pyCapitalize f).length '-'⟩ : String)]
        = (⟨List.replicate (pyCapitalize f).length '-'⟩ : String) from rfl]
    refine congrArg _ (congrArg _ (congrArg _ ?_))
    apply List.map_congr_left
    intro d _
    rw [show String.intercalate " | " [pyLjust (recGet d f) (pyCapitalize f).length]
        = pyLjust (recGet d f) (pyCapitalize f).length from rfl]
    rw [hrec d, pyLjust_empty]

/-- Witness for C10 at a concrete unknown field. -/
theorem unknown_field_renders_empty_witness :
    recGet ⟨"Jean", "Bretagne", some "j@x.fr", none, none⟩ "parti" = "" ∧
    format_lines [⟨"Jean", "Bretagne", some "j@x.fr", none, none⟩] ["parti"] true
      = ["", dashSep] ∧
    build_ascii_table [⟨"Jean", "Bretagne", some "j@x.fr", none, none⟩] ["parti"]
      = "Parti\n-----\n     " := by
  have h := unknown_field_renders_empty "parti" (by decide)
    ⟨"Jean", "Bretagne", some "j@x.fr", none, none⟩
    [⟨"Jean", "Bretagne", some "j@x.fr", none, none⟩] true
  refine ⟨h.1, h.2.2.1.trans (by decide), h.2.2.2.trans (by decide)⟩

/-! ## Properties of the listing extractor -/

/-- The predicate "is an `<h2>` element", as tested by the sibling walk. -/
def h2Elem (t : String) (_cls : List String) (_h : Option String) : Bool :=
  t == "h2"

/-- Helper: a node with no `<h2>` anywhere in it is in particular not
itself named `h2`. -/
theorem isNamed_h2_of_nodeAny (n : Node) (h : nodeAny h2Elem n = false) :
    isNamed "h2" n = false := by
  cases n with
  | text s => rfl
  | elem t cls hr ch =>
    rw [nodeAny] at h
    simp only [Bool.or_eq_false_iff] at h
    simpa [isNamed, h2Elem] using h.1

/-- Helper: the department scan of a sibling block followed by a region
heading never reads past that heading. -/
theorem department_scan_stop (post : NodeList) (h2n : Node)
    (hh : isNamed "h2" h2n = true) :
    ∀ (xs : NodeList) (acc : List (String × String)), listAny h2Elem xs = false →
      department_scan acc (xs ++ NodeList.cons h2n post) = department_scan acc xs
  | .nil, acc, _ => by
      rw [NodeList.nil_append]
      simp [department_scan, hh]
  | .cons n ns, acc, h => by
      rw [listAny] at h
      simp only [Bool.or_eq_false_iff] at h
      have hn2 := isNamed_h2_of_nodeAny n h.1
      rw [NodeList.cons_append]
      by_cases h4 : isNamed "h4" n = true
      · simp [department_scan, h4]
      · by_cases hdiv : isNamed "div" n = true
        · simp [department_scan, h4, hn2, hdiv,
            department_scan_stop post h2n hh ns _ h.2]
        · simp [department_scan, h4, hn2, hdiv,
            department_scan_stop post h2n hh ns acc h.2]

/-- Helper: the region block walk of a sibling block followed by a region
heading stops at that heading — entities after it contribute nothing. -/
theorem region_block_scan_stop (post : NodeList) (h2n : Node)
    (hh : isNamed "h2" h2n = true) :
    ∀ (xs : NodeList) (acc : List (String × String)), listAny h2Elem xs = false →
      region_block_scan acc (xs ++ NodeList.cons h2n post) = region_block_scan acc xs
  | .nil, acc, _ => by
      rw [NodeList.nil_append]
      simp [region_block_scan, hh]
  | .cons n ns, acc, h => by
      rw [listAny] at h
      simp only [Bool.or_eq_false_iff] at h
      have hn2 := isNamed_h2_of_nodeAny n h.1
      rw [NodeList.cons_append]
      by_cases h4 : (isNamed "h4" n && n.classTokens == ["departementTitre"]) = true
      · simp [region_block_scan, hn2, h4, department_scan_stop post h2n hh ns acc h.2,
          region_block_scan_stop post h2n hh ns _ h.2]
      · simp [region_block_scan, hn2, h4,
          region_block_scan_stop post h2n hh ns acc h.2]

mutual
/-- Helper: no region heading is found inside an `<h2>`-free node. -/
theorem findRegionH2InNode_none (region : String) (n : Node)
    (h : nodeAny h2Elem n = false) : findRegionH2InNode region n = none := by
  cases n with
  | text s => rfl
  | elem t cls hr ch =>
    rw [nodeAny] at h
    simp only [Bool.or_eq_false_iff] at h
    simp [findRegionH2InNode, findRegionH2InList_none region ch h.2]

/-- Helper: no region heading is found inside an `<h2>`-free sibling
list. -/
theorem findRegionH2InList_none (region : String) (ns : NodeList)
    (h : listAny h2Elem ns = false) : findRegionH2InList region ns = none := by
  cases ns with
  | nil => rfl
  | cons n ns' =>
    rw [listAny] at h
    simp only [Bool.or_eq_false_iff] at h
    have hn2 := isNamed_h2_of_nodeAny n h.1
    simp [findRegionH2InList, hn2, findRegionH2InNode_none region n h.1,
      findRegionH2InList_none region ns' h.2]
end

/-- Helper: the heading search skips an `<h2>`-free prefix of siblings. -/
theorem findRegionH2InList_append (region : String) (ys : NodeList) :
    ∀ xs : NodeList, listAny h2Elem xs = false →
      findRegionH2InList region (xs ++ ys) = findRegionH2InList region ys
  | .nil, _ => by rw [NodeList.nil_append]
  | .cons n ns, h => by
      rw [listAny] at h
      simp only [Bool.or_eq_false_iff] at h
      have hn2 := isNamed_h2_of_nodeAny n h.1
      rw [NodeList.cons_append]
      simp [findRegionH2InList, hn2, findRegionH2InNode_none region n h.1,
        findRegionH2InList_append region ys ns h.2]

/-- A region heading node: `<h2>R</h2>`. -/
def mkRegionHeading (r : String) : Node :=
  .elem "h2" [] none (.cons (.text r) .nil)

/-- C1: on a roster whose sibling list is `<h2>R1</h2>`, then an arbitrary
entity block `mid` free of region headings, then `<h2>R2</h2>`, then
arbitrary further siblings `post`: extraction for `R1` yields exactly the
walk of `mid` — every entity between the two headings is attributed to
`R1`, nothing from the `R2` block leaks in — and extraction for `R2`
yields exactly the walk of `post`, which does not depend on `mid`, so no
entity between the headings is attributed to `R2` and no entity is
attributed to two regions. -/
theorem region_scoping_positional (R1 R2 : String) (mid post : NodeList)
    (hR1 : pyStrip R1 = R1) (hR2 : pyStrip R2 = R2) (hne : R1 ≠ R2)
    (hmid : listAny h2Elem mid = false) :
    get_deputes_from_region R1
        (some (NodeList.cons (mkRegionHeading R1)
          (mid ++ NodeList.cons (mkRegionHeading R2) post)))
      = region_block_scan [] mid ∧
    get_deputes_from_region R2
        (some (NodeList.cons (mkRegionHeading R1)
          (mid ++ NodeList.cons (mkRegionHeading R2) post)))
      = region_block_scan [] post := by
  have htext : ∀ r : String, pyStrip r = r → nodeText (mkRegionHeading r) = r := by
    intro r hr
    simp [mkRegionHeading, nodeText, listText, hr, String.append_empty]
  have hh2 : ∀ r : String, isNamed "h2" (mkRegionHeading r) = true := by
    intro r
    simp [isNamed, mkRegionHeading]
  constructor
  · have hfind : findRegionH2InList R1
        (NodeList.cons (mkRegionHeading R1)
          (mid ++ NodeList.cons (mkRegionHeading R2) post))
        = some (mid ++ NodeList.cons (mkRegionHeading R2) post) := by
      simp [findRegionH2InList, hh2 R1, htext R1 hR1]
    simp only [get_deputes_from_region, parse_roster_page, hfind]
    exact region_block_scan_stop post (mkRegionHeading R2) (hh2 R2) mid [] hmid
  · have hne' : (R1 == R2) = false := beq_eq_false_iff_ne.mpr hne
    have hfind : findRegionH2InList R2
        (NodeList.cons (mkRegionHeading R1)
          (mid ++ NodeList.cons (mkRegionHeading R2) post))
        = some post := by
      rw [findRegionH2InList]
      simp only [hh2 R1, htext R1 hR1, hne', Bool.and_false, Bool.false_eq_true, if_false]
      rw [show findRegionH2InNode R2 (mkRegionHeading R1) = none from rfl]
      rw [findRegionH2InList_append R2 _ mid hmid]
      simp [findRegionH2InList, hh2 R2, htext R2 hR2]
    simp only [get_deputes_from_region, parse_roster_page, hfind]

/-- Witness for C1: a concrete roster with regions `Bretagne` and
`Normandie`, one department/entity between the headings and one after the
second heading; each entity is attributed to its own region only. -/
theorem region_scoping_positional_witness :
    get_deputes_from_region "Bretagne"
        (some (NodeList.cons (mkRegionHeading "Bretagne")
          (NodeList.ofList
            [Node.elem "h4" ["departementTitre"] none (NodeList.ofList [Node.text "Finistere"]),
             Node.elem "div" [] none (NodeList.ofList
               [Node.elem "ul" [] none (NodeList.ofList
                 [Node.elem "li" [] none (NodeList.ofList
                   [Node.elem "a" [] (some "/deputes/fiche/OMC_PA111")
                     (NodeList.ofList [Node.text "Alice Martin"])])])])]
            ++ NodeList.cons (mkRegionHeading "Normandie")
              (NodeList.ofList
                [Node.elem "h4" ["departementTitre"] none (NodeList.ofList [Node.text "Calvados"]),
                 Node.elem "div" [] none (NodeList.ofList
                   [Node.elem "ul" [] none (NodeList.ofList
                     [Node.elem "li" [] none (NodeList.ofList
                       [Node.elem "a" [] (some "/deputes/fiche/OMC_PA222")
                         (NodeList.ofList [Node.text "Bob Durand"])])])])]))))
      = [("Alice Martin", "https://www.assemblee-nationale.fr/deputes/fiche/OMC_PA111")] ∧
    get_deputes_from_region "Normandie"
        (some (NodeList.cons (mkRegionHeading "Bretagne")
          (NodeList.ofList
            [Node.elem "h4" ["departementTitre"] none (NodeList.ofList [Node.text "Finistere"]),
             Node.elem "div" [] none (NodeList.ofList
               [Node.elem "ul" [] none (NodeList.ofList
                 [Node.elem "li" [] none (NodeList.ofList
                   [Node.elem "a" [] (some "/deputes/fiche/OMC_PA111")
                     (NodeList.ofList [Node.text "Alice Martin"])])])])]
            ++ NodeList.cons (mkRegionHeading "Normandie")
              (NodeList.ofList
                [Node.elem "h4" ["departementTitre"] none (NodeList.ofList [Node.text "Calvados"]),
                 Node.elem "div" [] none (NodeList.ofList
                   [Node.elem "ul" [] none (NodeList.ofList
                     [Node.elem "li" [] none (NodeList.ofList
                       [Node.elem "a" [] (some "/deputes/fiche/OMC_PA222")
                         (NodeList.ofList [Node.text "Bob Durand"])])])])]))))
      = [("Bob Durand", "https://www.assemblee-nationale.fr/deputes/fiche/OMC_PA222")] := by
  have h := region_scoping_positional "Bretagne" "Normandie"
    (NodeList.ofList
      [Node.elem "h4" ["departementTitre"] none (NodeList.ofList [Node.text "Finistere"]),
       Node.elem "div" [] none (NodeList.ofList
         [Node.elem "ul" [] none (NodeList.ofList
           [Node.elem "li" [] none (NodeList.ofList
             [Node.elem "a" [] (some "/deputes/fiche/OMC_PA111")
               (NodeList.ofList [Node.text "Alice Martin"])])])])])
    (NodeList.ofList
      [Node.elem "h4" ["departementTitre"] none (NodeList.ofList [Node.text "Calvados"]),
       Node.elem "div" [] none (NodeList.ofList
         [Node.elem "ul" [] none (NodeList.ofList
           [Node.elem "li" [] none (NodeList.ofList
             [Node.elem "a" [] (some "/deputes/fiche/OMC_PA222")
               (NodeList.ofList [Node.text "Bob Durand"])])])])])
    (by decide) (by decide) (by decide) (by decide)
  exact ⟨h.1.trans (by decide), h.2.trans (by decide)⟩
